import Mathlib

/-!
Verification of the vision-assist post-detection pipeline
(`vision_server/vision_processor.py`): the IoU geometry utility, the
greedy same-label deduplicator, the pinhole-model distance estimator with
its reference-width table and height-proxy fallback, and the fusion step
that attaches distances and builds the label-keyed distances map.

Python floats are modelled as exact rationals; `round(x, d)` is modelled
as round-half-to-even at `d` decimal places.  Bounding-box coordinates are
integers, as produced by `map(int, box.tolist())` in the source.
-/

/-- A bounding box `[x1, y1, x2, y2]` in integer pixel coordinates. -/
structure Box where
  x1 : ℤ
  y1 : ℤ
  x2 : ℤ
  y2 : ℤ
deriving DecidableEq, Repr

/-- `VisionProcessor.iou`: intersection-over-union of two boxes.
Returns `0` immediately when the intersection area is zero. -/
def iou (boxA boxB : Box) : ℚ :=
  let xA := max boxA.x1 boxB.x1
  let yA := max boxA.y1 boxB.y1
  let xB := min boxA.x2 boxB.x2
  let yB := min boxA.y2 boxB.y2
  let interArea : ℤ := max 0 (xB - xA) * max 0 (yB - yA)
  if interArea = 0 then 0
  else
    let boxAArea : ℤ := (boxA.x2 - boxA.x1) * (boxA.y2 - boxA.y1)
    let boxBArea : ℤ := (boxB.x2 - boxB.x1) * (boxB.y2 - boxB.y1)
    (interArea : ℚ) / ((boxAArea : ℚ) + (boxBArea : ℚ) - (interArea : ℚ))

/-- Round a rational to the nearest integer, ties to even
(the semantics of Python's built-in `round`). -/
def roundHalfEven (q : ℚ) : ℤ :=
  let n := ⌊q⌋
  let f := q - (n : ℚ)
  if f < 1/2 then n
  else if 1/2 < f then n + 1
  else if n % 2 = 0 then n else n + 1

/-- Python's `round(q, d)`: round to `d` decimal places, ties to even. -/
def pyRound (d : ℕ) (q : ℚ) : ℚ :=
  (roundHalfEven (q * (10 : ℚ) ^ d) : ℚ) / (10 : ℚ) ^ d

/-- A detection record `{label, bbox, score, distance_cm}` as built by
`process_pil` from the raw detector output. -/
structure Detection where
  label : String
  bbox : Box
  score : ℚ
  distance_cm : Option ℚ
deriving DecidableEq, Repr

/-- `self.KNOWN_WIDTH`: the reference-width table, label to real width in
centimeters (each float literal written as the exact rational it denotes). -/
def KNOWN_WIDTH : List (String × ℚ) :=
  [("pen", 1),
   ("pencil", 1),
   ("eraser", 3),
   ("sharpener", 4),
   ("ruler", 30),
   ("notebook small", 15),
   ("notebook large", 21),
   ("binder", 25),
   ("scissors", 15),
   ("stapler", 12),
   ("tape dispenser", 15),
   ("marker", 2),
   ("highlighter", 2),
   ("calculator", 15),
   ("mouse wireless", 6),
   ("keyboard small", 40),
   ("keyboard large", 50),
   ("monitor small", 40),
   ("monitor large", 60),
   ("printer", 50),
   ("scanner", 40),
   ("router", 20),
   ("modem", 15),
   ("external hard drive", 12),
   ("usb stick", 2),
   ("smartwatch", 5),
   ("headset", 18),
   ("speaker small", 15),
   ("speaker large", 30),
   ("microphone", 5),
   ("camera small", 12),
   ("camera dslr", 15),
   ("tripod small", 10),
   ("tripod large", 15),
   ("guitar acoustic", 35),
   ("guitar electric", 32),
   ("violin", 30),
   ("drum small", 35),
   ("drum large", 50),
   ("keyboard piano", 120),
   ("basketball", 24),
   ("soccer ball", 22),
   ("tennis ball", 6.5),
   ("tennis racket", 27),
   ("baseball bat", 7.5),
   ("helmet bike", 25),
   ("helmet motorbike", 30),
   ("backpack small", 25),
   ("backpack large", 35),
   ("suitcase small", 40),
   ("suitcase large", 60),
   ("handbag", 25),
   ("wallet", 10),
   ("shoe adult", 12),
   ("shoe child", 8),
   ("boot", 15),
   ("sock", 5),
   ("hat", 20),
   ("glasses", 14),
   ("sunglasses", 14),
   ("umbrella closed", 8),
   ("umbrella open", 100),
   ("chair office", 50),
   ("chair dining", 45),
   ("stool", 35),
   ("table small", 60),
   ("table large", 150),
   ("coffee table", 100),
   ("sofa 2-seater", 150),
   ("sofa 3-seater", 200),
   ("bed single", 100),
   ("bed double", 140),
   ("bed queen", 160),
   ("bed king", 180),
   ("pillow", 50),
   ("blanket", 150),
   ("curtain small", 80),
   ("curtain large", 150),
   ("door", 90),
   ("window small", 60),
   ("window large", 120),
   ("refrigerator small", 60),
   ("refrigerator large", 80),
   ("microwave", 50),
   ("oven", 60),
   ("sink", 60),
   ("washing machine", 70),
   ("dishwasher", 60),
   ("toaster", 25),
   ("kettle", 20),
   ("lamp desk", 20),
   ("lamp floor", 40),
   ("clock wall", 30),
   ("clock desk", 15),
   ("vase small", 10),
   ("vase large", 20),
   ("flower pot", 20),
   ("bottle water", 7),
   ("bottle soda", 7),
   ("cup small", 8),
   ("cup large", 10),
   ("plate small", 20),
   ("plate large", 25),
   ("bowl", 20),
   ("spoon", 5),
   ("fork", 5),
   ("knife", 5),
   ("chair stool", 35),
   ("table round", 120)]

/-- `self.FOCAL_LENGTH_PX`: focal length in pixels. -/
def FOCAL_LENGTH_PX : ℚ := 850

/-- Association-list lookup, first match wins (Python dict lookup over the
unique-keyed maps used here). -/
def lookupD : List (String × ℚ) → String → Option ℚ
  | [], _ => none
  | (k, v) :: rest, l => if k = l then some v else lookupD rest l

/-- `max(1, x2 - x1)`: bounding-box width clamped to at least one pixel. -/
def bboxW (box : Box) : ℤ := max 1 (box.x2 - box.x1)

/-- `max(1, y2 - y1)`: bounding-box height clamped to at least one pixel. -/
def bboxH (box : Box) : ℤ := max 1 (box.y2 - box.y1)

/-- The distance estimate in centimeters for one detection: the pinhole
formula when `label` is in `KNOWN_WIDTH`, else the height-proxy fallback. -/
def distanceCm (label : String) (box : Box) (heightPx : ℤ) : ℚ :=
  match lookupD KNOWN_WIDTH label with
  | some w => pyRound 1 ((w * FOCAL_LENGTH_PX) / (bboxW box : ℚ))
  | none => pyRound 1 (1 / ((bboxH box : ℚ) / (heightPx : ℚ) + 1/10) * 3 * 100)

/-- Division that signals a zero divisor instead of defaulting, used to
show the source's divisions never hit a zero denominator. -/
def safeDiv (a b : ℚ) : Option ℚ :=
  if b = 0 then none else some (a / b)

/-- `distanceCm` with every division checked: returns `none` exactly when
some division in the corresponding Python expression would divide by zero. -/
def distanceCmChecked (label : String) (box : Box) (heightPx : ℤ) : Option ℚ :=
  match lookupD KNOWN_WIDTH label with
  | some w => (safeDiv (w * FOCAL_LENGTH_PX) (bboxW box : ℚ)).map (pyRound 1)
  | none =>
      (safeDiv (bboxH box : ℚ) (heightPx : ℚ)).bind fun r =>
        (safeDiv 1 (r + 1/10)).map fun p => pyRound 1 (p * 3 * 100)

/-- The drop test of `remove_overlapping_objects`: candidate `o` collides
with an accepted detection `f` when the labels are equal and the IoU of
the boxes exceeds `0.5`. -/
def isDup (o f : Detection) : Prop :=
  o.label = f.label ∧ 1/2 < iou o.bbox f.bbox

instance (o f : Detection) : Decidable (isDup o f) :=
  inferInstanceAs (Decidable (o.label = f.label ∧ 1/2 < iou o.bbox f.bbox))

/-- The loop of `remove_overlapping_objects`: `acc` is `filtered_objects`;
each candidate is kept unless it collides with an accepted detection. -/
def dedupAux (acc : List Detection) : List Detection → List Detection
  | [] => acc
  | o :: rest =>
      if ∃ f ∈ acc, isDup o f then dedupAux acc rest
      else dedupAux (acc ++ [o]) rest

/-- `VisionProcessor.remove_overlapping_objects`. -/
def remove_overlapping_objects (objects : List Detection) : List Detection :=
  dedupAux [] objects

/-- A raw detector triple `(box, cls, conf)` after coordinate/label
extraction: label string, integer box, confidence. -/
structure RawDet where
  label : String
  bbox : Box
  score : ℚ
deriving DecidableEq, Repr

/-- Normalization of one raw detection in the loop of `process_pil`:
score rounded to 2 decimals, `distance_cm` initialised to `None`. -/
def normalizeDet (r : RawDet) : Detection :=
  { label := r.label, bbox := r.bbox, score := pyRound 2 r.score,
    distance_cm := none }

/-- A raw face rectangle `(x, y, w, h)` from the cascade detector. -/
structure FaceRect where
  x : ℤ
  y : ℤ
  w : ℤ
  h : ℤ
deriving DecidableEq, Repr

/-- A normalized face record `{bbox, status}`. -/
structure Face where
  bbox : Box
  status : String
deriving DecidableEq, Repr

/-- Face normalization in `process_pil`: `[x, y, x+w, y+h]` with status
`"unknown"`. -/
def normalizeFace (r : FaceRect) : Face :=
  { bbox := { x1 := r.x, y1 := r.y, x2 := r.x + r.w, y2 := r.y + r.h },
    status := "unknown" }

/-- Python-dict insertion for the unique-keyed `distances` map: replace
the value of an existing key in place, else append at the end. -/
def insertD : List (String × ℚ) → String → ℚ → List (String × ℚ)
  | [], k, v => [(k, v)]
  | (k', v') :: rest, k, v =>
      if k' = k then (k, v) :: rest else (k', v') :: insertD rest k v

/-- The distance attached to one surviving object in the loop of
`process_pil` step 4. -/
def attachDistance (heightPx : ℤ) (o : Detection) : Detection :=
  { o with distance_cm := some (distanceCm o.label o.bbox heightPx) }

/-- The write to `out["distances"][label]` for one surviving object:
`round(distance_cm / 100.0, 2)`. -/
def distMeters (heightPx : ℤ) (o : Detection) : ℚ :=
  pyRound 2 (distanceCm o.label o.bbox heightPx / 100)

/-- One iteration of the distances-map updates of `process_pil` step 4. -/
def distStep (heightPx : ℤ) (m : List (String × ℚ)) (o : Detection) :
    List (String × ℚ) :=
  insertD m o.label (distMeters heightPx o)

/-- The aggregate result `{objects, texts, faces, distances}`. -/
structure FrameResult where
  objects : List Detection
  texts : List String
  faces : List Face
  distances : List (String × ℚ)
deriving DecidableEq, Repr

/-- `VisionProcessor.process_pil` on the outputs of the three perception
collaborators: normalizes and deduplicates detections, passes texts
through, normalizes faces, then attaches a distance to every surviving
object and fills the label-keyed `distances` map in processing order. -/
def process_pil (heightPx : ℤ) (dets : List RawDet) (texts : List String)
    (faces : List FaceRect) : FrameResult :=
  let objects := remove_overlapping_objects (dets.map normalizeDet)
  { objects := objects.map (attachDistance heightPx)
    texts := texts
    faces := faces.map normalizeFace
    distances := objects.foldl (distStep heightPx) [] }

/-! ## Helper lemmas about the deduplicator -/

lemma dedupAux_sublist : ∀ (objs acc : List Detection),
    (dedupAux acc objs).Sublist (acc ++ objs) := by
  intro objs
  induction objs with
  | nil => intro acc; simp [dedupAux]
  | cons o rest ih =>
      intro acc
      by_cases h : ∃ f ∈ acc, isDup o f
      · rw [dedupAux, if_pos h]
        exact (ih acc).trans ((List.sublist_cons_self o rest).append_left acc)
      · rw [dedupAux, if_neg h]
        have h2 := ih (acc ++ [o])
        simpa [List.append_assoc] using h2

lemma dedupAux_append_single (o : Detection) :
    ∀ (pre acc : List Detection),
    dedupAux acc (pre ++ [o]) =
      if ∃ f ∈ dedupAux acc pre, isDup o f then dedupAux acc pre
      else dedupAux acc pre ++ [o] := by
  intro pre
  induction pre with
  | nil => intro acc; simp [dedupAux]
  | cons p rest ih =>
      intro acc
      by_cases h : ∃ f ∈ acc, isDup p f
      · rw [List.cons_append, dedupAux, if_pos h, dedupAux, if_pos h, ih]
      · rw [List.cons_append, dedupAux, if_neg h, dedupAux, if_neg h, ih]

lemma dedupAux_pairwise : ∀ (objs acc : List Detection),
    acc.Pairwise (fun a b => ¬ isDup b a) →
    (dedupAux acc objs).Pairwise (fun a b => ¬ isDup b a) := by
  intro objs
  induction objs with
  | nil => intro acc h; simpa [dedupAux] using h
  | cons o rest ih =>
      intro acc hacc
      by_cases h : ∃ f ∈ acc, isDup o f
      · rw [dedupAux, if_pos h]
        exact ih acc hacc
      · rw [dedupAux, if_neg h]
        refine ih _ ?_
        rw [List.pairwise_append]
        refine ⟨hacc, List.pairwise_singleton _ _, ?_⟩
        intro a ha b hb
        rw [List.mem_singleton] at hb
        subst hb
        push_neg at h
        exact h a ha

lemma dedupAux_of_no_dup : ∀ (objs acc : List Detection),
    (∀ o ∈ objs, ∀ f ∈ acc, ¬ isDup o f) →
    objs.Pairwise (fun a b => ¬ isDup b a) →
    dedupAux acc objs = acc ++ objs := by
  intro objs
  induction objs with
  | nil => intro acc _ _; simp [dedupAux]
  | cons o rest ih =>
      intro acc hcross hpair
      have hno : ¬ ∃ f ∈ acc, isDup o f := by
        push_neg
        intro f hf
        exact hcross o (List.mem_cons_self o rest) f hf
      rw [dedupAux, if_neg hno, ih]
      · simp
      · intro o' ho' f hf
        rcases List.mem_append.mp hf with hfa | hfo
        · exact hcross o' (List.mem_cons_of_mem o ho') f hfa
        · rw [List.mem_singleton] at hfo
          subst hfo
          exact (List.pairwise_cons.mp hpair).1 o' ho'
      · exact (List.pairwise_cons.mp hpair).2

/-! ## Helper lemmas about IoU -/

lemma iou_comm (A B : Box) : iou A B = iou B A := by
  simp only [iou]
  rw [max_comm B.x1 A.x1, max_comm B.y1 A.y1, min_comm B.x2 A.x2,
    min_comm B.y2 A.y2,
    add_comm (((B.x2 - B.x1) * (B.y2 - B.y1) : ℤ) : ℚ)
      (((A.x2 - A.x1) * (A.y2 - A.y1) : ℤ) : ℚ)]

lemma iou_self (A : Box) (hx : A.x1 < A.x2) (hy : A.y1 < A.y2) :
    iou A A = 1 := by
  simp only [iou, max_self, min_self]
  have hx' : (0 : ℤ) < A.x2 - A.x1 := by omega
  have hy' : (0 : ℤ) < A.y2 - A.y1 := by omega
  rw [max_eq_right hx'.le, max_eq_right hy'.le]
  have hpos : (0 : ℤ) < (A.x2 - A.x1) * (A.y2 - A.y1) := mul_pos hx' hy'
  rw [if_neg hpos.ne']
  rw [add_sub_cancel_right]
  exact div_self (by exact_mod_cast hpos.ne')

/-! ## Helper lemmas about the distances map -/

lemma lookupD_insertD (m : List (String × ℚ)) (k l : String) (v : ℚ) :
    lookupD (insertD m k v) l = if k = l then some v else lookupD m l := by
  induction m with
  | nil => simp [insertD, lookupD]
  | cons p rest ih =>
      obtain ⟨a, b⟩ := p
      by_cases hak : a = k
      · subst hak
        rw [insertD, if_pos rfl, lookupD, lookupD]
        by_cases hal : a = l
        · rw [if_pos hal, if_pos hal]
        · rw [if_neg hal, if_neg hal, if_neg hal]
      · rw [insertD, if_neg hak, lookupD, lookupD]
        by_cases hal : a = l
        · subst hal
          rw [if_pos rfl, if_pos rfl, if_neg fun h => hak h.symm]
        · rw [if_neg hal, if_neg hal, ih]

lemma lookupD_foldl_distStep (heightPx : ℤ) :
    ∀ (objs : List Detection) (m : List (String × ℚ)) (l : String),
    lookupD (objs.foldl (distStep heightPx) m) l =
      match objs.reverse.find? (fun o => o.label == l) with
      | some o => some (distMeters heightPx o)
      | none => lookupD m l := by
  intro objs
  induction objs with
  | nil => intro m l; simp
  | cons o rest ih =>
      intro m l
      rw [List.foldl_cons, ih, List.reverse_cons, List.find?_append]
      cases hfind : rest.reverse.find? (fun o => o.label == l) with
      | some o' => simp
      | none =>
          simp only [Option.or, distStep, lookupD_insertD]
          by_cases hl : o.label = l
          · simp [List.find?, hl]
          · have hb : (o.label == l) = false := beq_eq_false_iff_ne.mpr hl
            simp [List.find?, hb]
            exact fun h => absurd h hl

/-! ## Claim theorems -/

/-- Claim C7: IoU is symmetric — `iou A B = iou B A` for all boxes — and
`iou A A = 1` for every valid box `A` with positive area. -/
theorem iou_symm_and_self :
    (∀ A B : Box, iou A B = iou B A) ∧
    (∀ A : Box, A.x1 < A.x2 → A.y1 < A.y2 → iou A A = 1) :=
  ⟨iou_comm, fun A hx hy => iou_self A hx hy⟩

/-- Witness for C7 at concrete boxes. -/
theorem iou_symm_and_self_witness :
    iou ⟨0, 0, 4, 5⟩ ⟨1, 1, 3, 9⟩ = iou ⟨1, 1, 3, 9⟩ ⟨0, 0, 4, 5⟩ ∧
    iou ⟨0, 0, 4, 5⟩ ⟨0, 0, 4, 5⟩ = 1 :=
  ⟨iou_symm_and_self.1 ⟨0, 0, 4, 5⟩ ⟨1, 1, 3, 9⟩,
   iou_symm_and_self.2 ⟨0, 0, 4, 5⟩ (by decide) (by decide)⟩

/-- Claim C3: the deduplicator is a single greedy pass returning an
ordered subsequence: a candidate is dropped exactly when some
already-accepted detection has the same label and IoU above `0.5`;
of two same-label detections with IoU above `0.5` only the first-seen
survives, while differing labels or IoU at most `0.5` keep both. -/
theorem dedup_greedy (objs : List Detection) :
    (remove_overlapping_objects objs).Sublist objs ∧
    (∀ (pre : List Detection) (o : Detection),
        remove_overlapping_objects (pre ++ [o]) =
          if ∃ f ∈ remove_overlapping_objects pre, isDup o f
          then remove_overlapping_objects pre
          else remove_overlapping_objects pre ++ [o]) ∧
    (∀ a b : Detection, a.label = b.label → 1/2 < iou a.bbox b.bbox →
        remove_overlapping_objects [a, b] = [a]) ∧
    (∀ a b : Detection, a.label ≠ b.label ∨ iou a.bbox b.bbox ≤ 1/2 →
        remove_overlapping_objects [a, b] = [a, b]) := by
  refine ⟨?_, ?_, ?_, ?_⟩
  · have h := dedupAux_sublist objs []
    simpa [remove_overlapping_objects] using h
  · intro pre o
    exact dedupAux_append_single o pre []
  · intro a b hl hiou
    have hdup : isDup b a := ⟨hl.symm, by rwa [iou_comm]⟩
    simp [remove_overlapping_objects, dedupAux, hdup]
  · intro a b hor
    have hnd : ¬ isDup b a := by
      rintro ⟨hl, hi⟩
      rcases hor with h1 | h2
      · exact h1 hl.symm
      · exact absurd hi (by rw [iou_comm]; exact not_lt.mpr h2)
    simp [remove_overlapping_objects, dedupAux, hnd]

/-- Witness for C3 at concrete detections: two overlapping same-label
detections keep only the first, differing labels keep both. -/
theorem dedup_greedy_witness :
    remove_overlapping_objects
        [⟨"pen", ⟨0, 0, 10, 10⟩, 1, none⟩, ⟨"pen", ⟨0, 2, 10, 10⟩, 1, none⟩] =
      [⟨"pen", ⟨0, 0, 10, 10⟩, 1, none⟩] ∧
    remove_overlapping_objects
        [⟨"pen", ⟨0, 0, 10, 10⟩, 1, none⟩,
         ⟨"cup small", ⟨0, 0, 10, 10⟩, 1, none⟩] =
      [⟨"pen", ⟨0, 0, 10, 10⟩, 1, none⟩,
       ⟨"cup small", ⟨0, 0, 10, 10⟩, 1, none⟩] :=
  ⟨(dedup_greedy []).2.2.1 _ _ rfl (by norm_num [iou]),
   (dedup_greedy []).2.2.2 _ _ (Or.inl (by decide))⟩

/-- Claim C8: the deduplicator output is pairwise duplicate-free: any two
detections both present in the output have differing labels or IoU at
most `0.5`. -/
theorem dedup_output_pairwise (objs : List Detection) :
    (remove_overlapping_objects objs).Pairwise
      (fun a b => a.label ≠ b.label ∨ iou a.bbox b.bbox ≤ 1/2) := by
  have h := dedupAux_pairwise objs [] List.Pairwise.nil
  refine h.imp ?_
  intro a b hab
  simp only [isDup] at hab
  push_neg at hab
  by_cases hl : a.label = b.label
  · right
    rw [iou_comm]
    exact hab hl.symm
  · left
    exact hl

/-- Claim C9: the deduplicator is idempotent: applying
`remove_overlapping_objects` to its own output returns it unchanged. -/
theorem dedup_idempotent (objs : List Detection) :
    remove_overlapping_objects (remove_overlapping_objects objs) =
      remove_overlapping_objects objs := by
  have hp := dedupAux_pairwise objs [] List.Pairwise.nil
  have h := dedupAux_of_no_dup (remove_overlapping_objects objs) []
    (fun o _ f hf => absurd hf (List.not_mem_nil f)) hp
  simpa [remove_overlapping_objects] using h

/-- Claim C1: for a label in the reference-width table the estimator
returns `round(real_width_cm * FOCAL_LENGTH_PX / max(1, bbox_width_px), 1)`;
for label `"ruler"` (width 30.0) and bbox width 300 it returns 85.0. -/
theorem distance_known_label (box : Box) (heightPx : ℤ) (label : String)
    (w : ℚ) (hw : lookupD KNOWN_WIDTH label = some w) :
    distanceCm label box heightPx =
      pyRound 1 ((w * FOCAL_LENGTH_PX) / ((max 1 (box.x2 - box.x1) : ℤ) : ℚ)) ∧
    distanceCm "ruler" ⟨0, 0, 300, 150⟩ heightPx = 85 := by
  constructor
  · simp only [distanceCm, hw, bboxW]
  · have hr : lookupD KNOWN_WIDTH "ruler" = some 30 := rfl
    simp only [distanceCm, hr, bboxW]
    norm_num [pyRound, roundHalfEven, FOCAL_LENGTH_PX]

/-- Witness for C1 at the ruler example of the spec. -/
theorem distance_known_label_witness :
    distanceCm "ruler" ⟨0, 0, 300, 150⟩ 1000 =
      pyRound 1 ((30 * FOCAL_LENGTH_PX) / ((max 1 ((300 : ℤ) - 0) : ℤ) : ℚ)) ∧
    distanceCm "ruler" ⟨0, 0, 300, 150⟩ 1000 = 85 :=
  distance_known_label ⟨0, 0, 300, 150⟩ 1000 "ruler" 30 rfl

/-- Claim C2: for a label absent from the reference-width table the
estimator returns the fallback
`round((1 / (bbox_height_px / image_height_px + 0.1)) * 3 * 100, 1)`;
bbox height 100 in a 1000-pixel-tall image yields 1500.0. -/
theorem distance_unknown_label (box : Box) (heightPx : ℤ) (label : String)
    (hl : lookupD KNOWN_WIDTH label = none) (hbox : box.y1 < box.y2)
    (hh : 0 < heightPx) :
    distanceCm label box heightPx =
      pyRound 1
        (1 / (((box.y2 - box.y1 : ℤ) : ℚ) / (heightPx : ℚ) + 1/10) * 3 * 100) ∧
    distanceCm label ⟨0, 0, 50, 100⟩ 1000 = 1500 := by
  have hbh : bboxH box = box.y2 - box.y1 := max_eq_right (by omega)
  constructor
  · simp only [distanceCm, hl, hbh]
  · simp only [distanceCm, hl, bboxH]
    norm_num [pyRound, roundHalfEven]

/-- Witness for C2 at the fallback example of the spec, with the
out-of-table label `"person"`. -/
theorem distance_unknown_label_witness :
    distanceCm "person" ⟨0, 0, 50, 100⟩ 1000 =
      pyRound 1
        (1 / ((((100 : ℤ) - 0 : ℤ) : ℚ) / (((1000 : ℤ)) : ℚ) + 1/10) * 3 * 100) ∧
    distanceCm "person" ⟨0, 0, 50, 100⟩ 1000 = 1500 :=
  distance_unknown_label ⟨0, 0, 50, 100⟩ 1000 "person" rfl (by decide)
    (by decide)

/-- Claim C4: for any label and any box (including zero-width or
zero-height) and any positive image height, the estimator is total: the
checked-division variant returns `some` of the unchecked value, the
clamped width and height are at least one pixel, and the fallback
denominator is at least 0.1. -/
theorem distance_estimator_total (label : String) (box : Box)
    (heightPx : ℤ) (hh : 0 < heightPx) :
    distanceCmChecked label box heightPx =
      some (distanceCm label box heightPx) ∧
    1 ≤ bboxW box ∧ 1 ≤ bboxH box ∧
    (1/10 : ℚ) ≤ (bboxH box : ℚ) / (heightPx : ℚ) + 1/10 := by
  have hw : (1 : ℤ) ≤ bboxW box := le_max_left _ _
  have hb : (1 : ℤ) ≤ bboxH box := le_max_left _ _
  have hwz : (0 : ℤ) < bboxW box := lt_of_lt_of_le one_pos hw
  have hbz : (0 : ℤ) < bboxH box := lt_of_lt_of_le one_pos hb
  have hwq : (0 : ℚ) < (bboxW box : ℚ) := by exact_mod_cast hwz
  have hbq : (0 : ℚ) < (bboxH box : ℚ) := by exact_mod_cast hbz
  have hhq : (0 : ℚ) < (heightPx : ℚ) := by exact_mod_cast hh
  have hr : (0 : ℚ) ≤ (bboxH box : ℚ) / (heightPx : ℚ) :=
    div_nonneg hbq.le hhq.le
  refine ⟨?_, hw, hb, by linarith⟩
  cases hcase : lookupD KNOWN_WIDTH label with
  | some w =>
      simp only [distanceCmChecked, distanceCm, hcase, safeDiv]
      rw [if_neg hwq.ne', Option.map_some']
  | none =>
      have h2 : (bboxH box : ℚ) / (heightPx : ℚ) + 1/10 ≠ 0 := by
        have : (0 : ℚ) < (bboxH box : ℚ) / (heightPx : ℚ) + 1/10 := by linarith
        exact this.ne'
      simp only [distanceCmChecked, distanceCm, hcase, safeDiv]
      rw [if_neg hhq.ne']
      simp only [Option.some_bind]
      rw [if_neg h2]
      simp only [Option.map_some']

/-- Witness for C4 at a degenerate zero-area box. -/
theorem distance_estimator_total_witness :
    distanceCmChecked "pen" ⟨0, 0, 0, 0⟩ 1 =
      some (distanceCm "pen" ⟨0, 0, 0, 0⟩ 1) ∧
    1 ≤ bboxW ⟨0, 0, 0, 0⟩ ∧ 1 ≤ bboxH ⟨0, 0, 0, 0⟩ ∧
    (1/10 : ℚ) ≤ (bboxH ⟨0, 0, 0, 0⟩ : ℚ) / (((1 : ℤ)) : ℚ) + 1/10 :=
  distance_estimator_total "pen" ⟨0, 0, 0, 0⟩ 1 (by decide)

/-- Claim C5: every surviving object carries
`distance_cm = distanceCm label bbox height`, and the distances map is
keyed by label, holding `round(distance_cm / 100, 2)` of the
last-processed object with that label (last-write-wins); labels with no
surviving object have no entry. -/
theorem distances_map_label_keyed (heightPx : ℤ) (dets : List RawDet)
    (texts : List String) (faces : List FaceRect) (l : String) :
    (∀ o ∈ (process_pil heightPx dets texts faces).objects,
        o.distance_cm = some (distanceCm o.label o.bbox heightPx)) ∧
    lookupD (process_pil heightPx dets texts faces).distances l =
      ((remove_overlapping_objects (dets.map normalizeDet)).reverse.find?
          (fun o => o.label == l)).map
        (fun o => pyRound 2 (distanceCm o.label o.bbox heightPx / 100)) := by
  constructor
  · intro o ho
    simp only [process_pil, List.mem_map] at ho
    obtain ⟨o', _, rfl⟩ := ho
    rfl
  · have h := lookupD_foldl_distStep heightPx
      (remove_overlapping_objects (dets.map normalizeDet)) [] l
    simp only [process_pil]
    rw [h]
    cases hf : ((remove_overlapping_objects (dets.map normalizeDet)).reverse.find?
        fun o => o.label == l) with
    | some o => rfl
    | none => rfl

/-- The demo frame of the spec: two overlapping `"pen"` detections with
IoU 0.8 against each other and one far-away `"notebook small"`. -/
def demoDets : List RawDet :=
  [⟨"pen", ⟨0, 0, 10, 10⟩, 9/10⟩,
   ⟨"pen", ⟨0, 2, 10, 10⟩, 4/5⟩,
   ⟨"notebook small", ⟨100, 100, 200, 200⟩, 7/10⟩]

/-- Claim C6: on the demo frame the pipeline returns exactly 2 objects,
each with a non-null `distance_cm`, and the distances map has exactly
2 keys. -/
theorem pipeline_demo_frame :
    iou ⟨0, 0, 10, 10⟩ ⟨0, 2, 10, 10⟩ = 4/5 ∧
    iou ⟨0, 0, 10, 10⟩ ⟨100, 100, 200, 200⟩ = 0 ∧
    iou ⟨0, 2, 10, 10⟩ ⟨100, 100, 200, 200⟩ = 0 ∧
    (process_pil 1000 demoDets [] []).objects.length = 2 ∧
    (∀ o ∈ (process_pil 1000 demoDets [] []).objects,
        o.distance_cm.isSome) ∧
    (process_pil 1000 demoDets [] []).distances.length = 2 := by
  have hiou : iou ⟨0, 0, 10, 10⟩ ⟨0, 2, 10, 10⟩ = 4/5 := by
    norm_num [iou]
  have hd : isDup (normalizeDet ⟨"pen", ⟨0, 2, 10, 10⟩, 4/5⟩)
      (normalizeDet ⟨"pen", ⟨0, 0, 10, 10⟩, 9/10⟩) :=
    ⟨rfl, by norm_num [iou, normalizeDet]⟩
  have hnd : ¬ isDup (normalizeDet ⟨"notebook small", ⟨100, 100, 200, 200⟩, 7/10⟩)
      (normalizeDet ⟨"pen", ⟨0, 0, 10, 10⟩, 9/10⟩) :=
    fun h => absurd h.1 (by decide)
  have hdedup : remove_overlapping_objects (demoDets.map normalizeDet) =
      [normalizeDet ⟨"pen", ⟨0, 0, 10, 10⟩, 9/10⟩,
       normalizeDet ⟨"notebook small", ⟨100, 100, 200, 200⟩, 7/10⟩] := by
    simp [demoDets, remove_overlapping_objects, dedupAux, hd, hnd]
  refine ⟨hiou, by norm_num [iou], by norm_num [iou], ?_, ?_, ?_⟩
  · simp [process_pil, hdedup]
  · intro o ho
    simp only [process_pil, hdedup, List.mem_map] at ho
    obtain ⟨o', _, rfl⟩ := ho
    rfl
  · simp only [process_pil, hdedup, List.foldl_cons, List.foldl_nil]
    simp [distStep, insertD, normalizeDet]

/-- Claim C10: the key set of the distances map is exactly the set of
labels of the surviving objects, every surviving object has a non-null
`distance_cm`, and an empty detector output gives an empty map. -/
theorem distances_keys_match_objects (heightPx : ℤ) (dets : List RawDet)
    (texts : List String) (faces : List FaceRect) :
    (∀ l : String,
        (lookupD (process_pil heightPx dets texts faces).distances l).isSome ↔
          ∃ o ∈ (process_pil heightPx dets texts faces).objects,
            o.label = l) ∧
    (∀ o ∈ (process_pil heightPx dets texts faces).objects,
        o.distance_cm.isSome) ∧
    (dets = [] → (process_pil heightPx dets texts faces).distances = []) := by
  refine ⟨?_, ?_, ?_⟩
  · intro l
    have h := lookupD_foldl_distStep heightPx
      (remove_overlapping_objects (dets.map normalizeDet)) [] l
    simp only [process_pil]
    rw [h]
    cases hf : ((remove_overlapping_objects (dets.map normalizeDet)).reverse.find?
        fun o => o.label == l) with
    | some o =>
        simp only [Option.isSome_some, true_iff]
        refine ⟨attachDistance heightPx o, List.mem_map_of_mem _ ?_, ?_⟩
        · exact List.mem_reverse.mp (List.mem_of_find?_eq_some hf)
        · have hp := List.find?_some hf
          simpa [attachDistance] using hp
    | none =>
        rw [List.find?_eq_none] at hf
        constructor
        · intro hsome
          exact absurd hsome (by simp [lookupD])
        · rintro ⟨o, ho, hlab⟩
          obtain ⟨o', ho', rfl⟩ := List.mem_map.mp ho
          have hne := hf o' (List.mem_reverse.mpr ho')
          simp only [attachDistance] at hlab
          simp [hlab] at hne
  · intro o ho
    simp only [process_pil, List.mem_map] at ho
    obtain ⟨o', _, rfl⟩ := ho
    rfl
  · intro hd
    subst hd
    rfl

/-- Witness for C10: an empty frame yields an empty distances map. -/
theorem distances_keys_match_objects_witness :
    (process_pil 720 [] ["hello"] [⟨1, 2, 3, 4⟩]).distances = [] :=
  (distances_keys_match_objects 720 [] ["hello"] [⟨1, 2, 3, 4⟩]).2.2 rfl
